import Mathlib

/-!
Verification of the SEC filing acquisition and indexing pipeline
(src/sec_data_downloader.py) against its design specification.

The Python source is shallowly embedded below: the pure fragments become
Lean functions, the stateful download loop becomes an explicit fold over
the (ticker, filing_type) matrix driven by an oracle describing the
external fetch, and the directory tree that os.walk traverses becomes an
inductive tree.
-/

namespace SecDownloader

/-! ## Metadata extraction (lines 158-179 of sec_data_downloader.py) -/

/-- Whitespace characters matched by the whitespace class of the Python re
module in the ASCII range, which covers SEC header text. -/
def isWS (c : Char) : Bool :=
  c == ' ' || c == '\t' || c == '\n' || c == '\r' || c == '\x0b' || c == '\x0c'

/-- Length of the maximal whitespace run at the front of a character list. -/
def wsRun : List Char → Nat
  | [] => 0
  | c :: t => if isWS c then wsRun t + 1 else 0

/-- Tail of the regex pattern right after the literal label: one or more
whitespace characters followed by eight digits, which are captured.
Backtracking over the greedy whitespace quantifier can only succeed at the
end of the maximal whitespace run, since a shorter run leaves a whitespace
character where a digit is required, so the match is deterministic. -/
def matchAfterLabel (l : List Char) : Option (List Char) :=
  let k := wsRun l
  if k = 0 then none
  else
    let ds := (l.drop k).take 8
    if ds.length == 8 && ds.all Char.isDigit then some ds else none

/-- First match of the pattern consisting of the label, one or more
whitespace characters and eight captured digits, scanning the content left
to right as re.search does; yields the captured digit characters of the
first position where the whole pattern matches. -/
def searchPat (label : List Char) : List Char → Option (List Char)
  | [] => none
  | c :: rest =>
    match (if label.isPrefixOf (c :: rest) then
             matchAfterLabel ((c :: rest).drop label.length)
           else none) with
    | some ds => some ds
    | none => searchPat label rest

def filedLabel : List Char := "FILED AS OF DATE:".data

def periodLabel : List Char := "CONFORMED PERIOD OF REPORT:".data

/-- Reformatting of the eight captured digits by pure string slicing, as in
line 171: d[:4] ++ "-" ++ d[4:6] ++ "-" ++ d[6:8], with no calendar
validation of month or day. -/
def formatDate (d : List Char) : String :=
  String.mk (d.take 4) ++ "-" ++ String.mk ((d.drop 4).take 2) ++ "-" ++
    String.mk ((d.drop 6).take 2)

/-- One file of an accession directory: its name and its readable content.
A content of none models a file whose open or read raises an exception,
which line 178 catches. -/
structure FileEntry where
  name : String
  content : Option String
  deriving DecidableEq

/-- Substring test, modelling the Python membership test on strings. -/
def containsSub (pat : List Char) : List Char → Bool
  | [] => pat.isEmpty
  | c :: t => pat.isPrefixOf (c :: t) || containsSub pat t

/-- Name filter of line 162: file.endswith(".txt") and "filing-details"
occurring in the file name. -/
def isDetailsName (name : String) : Bool :=
  ".txt".data.isSuffixOf name.data && containsSub "filing-details".data name.data

/-- Body of the per-file loop at lines 161-179: a field is updated only
when the name filter passes, the file is readable, and the corresponding
pattern matches within the first 10000 characters read; otherwise the
previously accumulated value is kept. -/
def extractStep (acc : String × String) (file : FileEntry) : String × String :=
  if isDetailsName file.name then
    match file.content with
    | none => acc
    | some content =>
      let c := content.data.take 10000
      let fd := match searchPat filedLabel c with
        | some d => formatDate d
        | none => acc.1
      let por := match searchPat periodLabel c with
        | some d => formatDate d
        | none => acc.2
      (fd, por)
  else acc

/-- Metadata extraction over the files of one accession directory,
lines 158-179: both fields start as "Unknown". -/
def extractMetadata (files : List FileEntry) : String × String :=
  files.foldl extractStep ("Unknown", "Unknown")

/-- Outcome of searching the filing date pattern in the readable content
of one file: none when the file is unreadable or the pattern is absent. -/
def filedMatch (f : FileEntry) : Option (List Char) :=
  f.content.bind fun c => searchPat filedLabel (c.data.take 10000)

/-- Outcome of searching the period of report pattern in the readable
content of one file. -/
def periodMatch (f : FileEntry) : Option (List Char) :=
  f.content.bind fun c => searchPat periodLabel (c.data.take 10000)

/-- Filing details text of the specification example. -/
def exampleHeader : String :=
  "FILED AS OF DATE: 20230415\nCONFORMED PERIOD OF REPORT: 20221231\n"

/-- Filing details text with neither header line. -/
def noHeaderText : String :=
  "This text has no SEC header lines at all."

/-- Filing details text whose eight digit fields are not calendar dates. -/
def badDateText : String :=
  "FILED AS OF DATE: 20231399\nCONFORMED PERIOD OF REPORT: 20231399\n"

example : extractMetadata [⟨"filing-details.txt", some exampleHeader⟩] =
    ("2023-04-15", "2022-12-31") := by decide

example : extractMetadata [⟨"filing-details.txt", some noHeaderText⟩] =
    ("Unknown", "Unknown") := by decide

example : extractMetadata [⟨"filing-details.txt", some badDateText⟩] =
    ("2023-13-99", "2023-13-99") := by decide

example : filedMatch ⟨"filing-details.txt", some exampleHeader⟩ =
    some "20230415".data := by decide

/-! ## Inventory rows and summary aggregation (lines 118-125 and 202-226) -/

/-- One row of the inventory table, with the columns built at
lines 118-125 and appended at lines 181-186. -/
structure InventoryRow where
  ticker : String
  filing_type : String
  filing_date : String
  accession_number : String
  file_count : Nat
  period_of_report : String
  deriving DecidableEq

/-- One row of the summary table produced by analyze_results. -/
structure SummaryRow where
  ticker : String
  filing_type : String
  filing_count : Nat
  total_files : Nat
  deriving DecidableEq

/-- Strict lexicographic order on character lists by code point, which is
how Python compares strings. -/
def charsLt : List Char → List Char → Bool
  | [], [] => false
  | [], _ :: _ => true
  | _ :: _, [] => false
  | a :: as, b :: bs => if a < b then true else if b < a then false else charsLt as bs

/-- Strict lexicographic order on (ticker, filing_type) keys; the pandas
groupby at line 211 sorts the group keys ascending by this order. -/
def keyLtB (a b : String × String) : Bool :=
  charsLt a.1.data b.1.data ||
    (a.1 == b.1 && charsLt a.2.data b.2.data)

/-- Propositional form of the key order, for the sorting function. -/
def keyLt (a b : String × String) : Prop := keyLtB a b = true

instance decKeyLt : DecidableRel keyLt :=
  fun a b => inferInstanceAs (Decidable (keyLtB a b = true))

/-- Distinct (ticker, filing_type) keys of the inventory, in the ascending
order in which pandas groupby enumerates the groups. -/
def summaryKeys (rows : List InventoryRow) : List (String × String) :=
  List.insertionSort keyLt ((rows.map fun r => (r.ticker, r.filing_type)).dedup)

/-- Rows of one (ticker, filing_type) group. -/
def groupRows (rows : List InventoryRow) (t ft : String) : List InventoryRow :=
  rows.filter fun r => r.ticker == t && r.filing_type == ft

/-- Summary aggregation of analyze_results, lines 202-226: on an empty
inventory an empty table that still has the summary columns is returned
(line 208); otherwise the rows are grouped by (ticker, filing_type), the
accession numbers of each group are counted into filing_count and the
file_count values summed into total_files (lines 211-220). -/
def analyze_results (rows : List InventoryRow) : List SummaryRow :=
  if rows.isEmpty then []
  else (summaryKeys rows).map fun k =>
    { ticker := k.1, filing_type := k.2,
      filing_count := (groupRows rows k.1 k.2).length,
      total_files := ((groupRows rows k.1 k.2).map (fun r => r.file_count)).sum }

/-- Three row inventory of the specification example. -/
def exampleInventory : List InventoryRow :=
  [⟨"AAPL", "10-K", "Unknown", "acc1", 5, "Unknown"⟩,
   ⟨"AAPL", "10-K", "Unknown", "acc2", 3, "Unknown"⟩,
   ⟨"AAPL", "10-Q", "Unknown", "acc3", 2, "Unknown"⟩]

example : analyze_results exampleInventory =
    [⟨"AAPL", "10-K", 2, 8⟩, ⟨"AAPL", "10-Q", 1, 2⟩] := by decide

/-! ## Fetch limit heuristic (lines 134-142) -/

/-- Limit heuristic of lines 134-142, with the start and end years already
parsed out of the ISO date strings as lines 134-135 do; every filing type
other than 10-K takes the else branch, which the code comments as the
10-Q case. -/
def fetchLimit (filing_type : String) (start_year end_year : Int) : Int :=
  let years_difference := end_year - start_year + 1
  if filing_type == "10-K" then max 5 years_difference
  else max 15 (years_difference * 4)

/-! ## Directory model and the download loop (lines 100-200) -/

/-- Directory tree below a ticker path: files of the directory itself and
the named child directories, in the order os.walk enumerates them. -/
inductive DirTree : Type where
  | node : List FileEntry → List (String × DirTree) → DirTree

/-- Files lying directly in the root of the tree. -/
def DirTree.files : DirTree → List FileEntry
  | .node fs _ => fs

/-- Named child directories of the root of the tree. -/
def DirTree.subs : DirTree → List (String × DirTree)
  | .node _ s => s

mutual

/-- Entries (basename, files) yielded by os.walk started at a directory
with the given basename: the directory itself first, then every
descendant, depth first and in order. -/
def walkAll (name : String) : DirTree → List (String × List FileEntry)
  | .node fs subs => (name, fs) :: walkSubs subs

/-- Walk entries of a list of named child directories, in order. -/
def walkSubs : List (String × DirTree) → List (String × List FileEntry)
  | [] => []
  | (n, t) :: rest => walkAll n t ++ walkSubs rest

end

/-- Walk entries of every strict descendant of the ticker path, which is
what the root filter at line 156 keeps: os.walk yields the ticker path
itself first and the code skips exactly that entry. -/
def walkDescendants (t : DirTree) : List (String × List FileEntry) :=
  walkSubs t.subs

/-- Row construction of lines 181-186 for one accepted directory: the
accession number is the basename of the walked directory (line 157) and
the metadata comes from scanning its files. -/
def rowOfDir (ticker ftype : String) (p : String × List FileEntry) : InventoryRow :=
  { ticker := ticker, filing_type := ftype,
    filing_date := (extractMetadata p.2).1,
    accession_number := p.1,
    file_count := p.2.length,
    period_of_report := (extractMetadata p.2).2 }

/-- Rows emitted for one (ticker, filing_type) pair by walking its tree
(lines 154-186): every walked directory other than the ticker path root
itself, kept only when it holds at least one file (line 156). -/
def processTree (ticker ftype : String) (t : DirTree) : List InventoryRow :=
  ((walkDescendants t).filter fun p => decide (0 < p.2.length)).map
    (rowOfDir ticker ftype)

/-- Outcome of the external fetch for one pair: an exception, a missing
ticker path after a quiet fetch (line 154), or the populated tree rooted
at the ticker path. -/
inductive FetchOutcome : Type where
  | error : FetchOutcome
  | ok : Option DirTree → FetchOutcome

/-- Observable events of the loop body: the attempt at a pair, the logged
fetch failure, and the sleeps of lines 189 and 193. -/
inductive Event : Type where
  | fetchAttempt : String → String → Event
  | fetchError : String → String → Event
  | sleep : Nat → Event
  deriving DecidableEq

/-- Body of the per-pair try block, lines 130-193: on success the rows of
the walked tree are collected and a one unit politeness sleep follows
(line 189); an exception from the fetch is caught at line 191, logged as
a fetch error event, and followed by a ten unit backoff sleep (line 193);
a missing ticker path contributes no rows. -/
def runPair (fetch : String → String → FetchOutcome) (tk ft : String) :
    List InventoryRow × List Event :=
  match fetch tk ft with
  | .error => ([], [.fetchAttempt tk ft, .fetchError tk ft, .sleep 10])
  | .ok Option.none => ([], [.fetchAttempt tk ft, .sleep 1])
  | .ok (Option.some t) => (processTree tk ft t, [.fetchAttempt tk ft, .sleep 1])

/-- Ticker major iteration order of the nested loops at lines 128-129. -/
def pairsOf (tickers filing_types : List String) : List (String × String) :=
  tickers.flatMap fun tk => filing_types.map fun ft => (tk, ft)

/-- Whole download loop: the inventory rows and the event trace that the
loop accumulates over the pairs in iteration order. -/
def runAll (fetch : String → String → FetchOutcome)
    (tickers filing_types : List String) : List InventoryRow × List Event :=
  ((pairsOf tickers filing_types).flatMap fun p => (runPair fetch p.1 p.2).1,
   (pairsOf tickers filing_types).flatMap fun p => (runPair fetch p.1 p.2).2)

/-- Whole run of main, lines 228-261: creating the download root is the
only step whose failure aborts the run, since create_directories at
lines 92-98 is guarded by no handler; when it succeeds the loop always
completes and both the inventory table and the recomputed summary table
are produced. -/
def runComplete (mkdirOk : Bool) (fetch : String → String → FetchOutcome)
    (tickers filing_types : List String) :
    Option (List InventoryRow × List SummaryRow) :=
  if mkdirOk then
    let rows := (runAll fetch tickers filing_types).1
    some (rows, analyze_results rows)
  else none

/-! ## Helper lemmas about the extraction step -/

/-- Files failing the name filter leave the accumulator unchanged. -/
theorem extractStep_skip {acc : String × String} {f : FileEntry}
    (h : isDetailsName f.name = false) : extractStep acc f = acc := by
  simp [extractStep, h]

/-- Unreadable files leave the accumulator unchanged: the exception is
caught before any field assignment. -/
theorem extractStep_none {acc : String × String} {f : FileEntry}
    (h : f.content = none) : extractStep acc f = acc := by
  cases hd : isDetailsName f.name <;> simp [extractStep, hd, h]

/-- A readable details file whose content matches the filing date pattern
overwrites the first field with the reformatted capture. -/
theorem extractStep_fst_some {acc : String × String} {f : FileEntry} {c : String}
    {d : List Char} (hn : isDetailsName f.name = true) (hc : f.content = some c)
    (hm : searchPat filedLabel (c.data.take 10000) = some d) :
    (extractStep acc f).1 = formatDate d := by
  simp [extractStep, hn, hc, hm]

/-- A readable details file without the filing date pattern keeps the
first field. -/
theorem extractStep_fst_keep {acc : String × String} {f : FileEntry} {c : String}
    (hn : isDetailsName f.name = true) (hc : f.content = some c)
    (hm : searchPat filedLabel (c.data.take 10000) = none) :
    (extractStep acc f).1 = acc.1 := by
  simp [extractStep, hn, hc, hm]

/-- A readable details file whose content matches the period pattern
overwrites the second field with the reformatted capture. -/
theorem extractStep_snd_some {acc : String × String} {f : FileEntry} {c : String}
    {d : List Char} (hn : isDetailsName f.name = true) (hc : f.content = some c)
    (hm : searchPat periodLabel (c.data.take 10000) = some d) :
    (extractStep acc f).2 = formatDate d := by
  simp [extractStep, hn, hc, hm]

/-- A readable details file without the period pattern keeps the second
field. -/
theorem extractStep_snd_keep {acc : String × String} {f : FileEntry} {c : String}
    (hn : isDetailsName f.name = true) (hc : f.content = some c)
    (hm : searchPat periodLabel (c.data.take 10000) = none) :
    (extractStep acc f).2 = acc.2 := by
  simp [extractStep, hn, hc, hm]

/-- Decomposition of a successful filing date search on a file. -/
theorem filedMatch_some {f : FileEntry} {d : List Char} (h : filedMatch f = some d) :
    ∃ c, f.content = some c ∧ searchPat filedLabel (c.data.take 10000) = some d := by
  cases hc : f.content with
  | none => simp [filedMatch, hc] at h
  | some c => exact ⟨c, rfl, by simpa [filedMatch, hc] using h⟩

/-- Decomposition of a successful period search on a file. -/
theorem periodMatch_some {f : FileEntry} {d : List Char} (h : periodMatch f = some d) :
    ∃ c, f.content = some c ∧ searchPat periodLabel (c.data.take 10000) = some d := by
  cases hc : f.content with
  | none => simp [periodMatch, hc] at h
  | some c => exact ⟨c, rfl, by simpa [periodMatch, hc] using h⟩

/-- One extraction step keeps the first field when the file fails the name
filter, is unreadable, or lacks the filing date pattern. -/
theorem extractStep_fst_of_noMatch {acc : String × String} {f : FileEntry}
    (h : isDetailsName f.name = false ∨ filedMatch f = none) :
    (extractStep acc f).1 = acc.1 := by
  rcases h with hn | hm
  · rw [extractStep_skip hn]
  · cases hc : f.content with
    | none => rw [extractStep_none hc]
    | some c =>
      have hs : searchPat filedLabel (c.data.take 10000) = none := by
        simpa [filedMatch, hc] using hm
      cases hn2 : isDetailsName f.name with
      | false => rw [extractStep_skip hn2]
      | true => exact extractStep_fst_keep hn2 hc hs

/-- One extraction step keeps the second field when the file fails the
name filter, is unreadable, or lacks the period pattern. -/
theorem extractStep_snd_of_noMatch {acc : String × String} {f : FileEntry}
    (h : isDetailsName f.name = false ∨ periodMatch f = none) :
    (extractStep acc f).2 = acc.2 := by
  rcases h with hn | hm
  · rw [extractStep_skip hn]
  · cases hc : f.content with
    | none => rw [extractStep_none hc]
    | some c =>
      have hs : searchPat periodLabel (c.data.take 10000) = none := by
        simpa [periodMatch, hc] using hm
      cases hn2 : isDetailsName f.name with
      | false => rw [extractStep_skip hn2]
      | true => exact extractStep_snd_keep hn2 hc hs

/-- The whole file scan keeps the first field when no file yields a filing
date match. -/
theorem foldl_fst_unchanged (files : List FileEntry) :
    ∀ acc : String × String,
      (∀ f ∈ files, isDetailsName f.name = false ∨ filedMatch f = none) →
      (files.foldl extractStep acc).1 = acc.1 := by
  induction files with
  | nil => intro acc _; rfl
  | cons f rest ih =>
    intro acc h
    rw [List.foldl_cons,
      ih (extractStep acc f) (fun g hg => h g (List.mem_cons_of_mem f hg)),
      extractStep_fst_of_noMatch (h f (List.mem_cons_self f rest))]

/-- The whole file scan keeps the second field when no file yields a
period match. -/
theorem foldl_snd_unchanged (files : List FileEntry) :
    ∀ acc : String × String,
      (∀ f ∈ files, isDetailsName f.name = false ∨ periodMatch f = none) →
      (files.foldl extractStep acc).2 = acc.2 := by
  induction files with
  | nil => intro acc _; rfl
  | cons f rest ih =>
    intro acc h
    rw [List.foldl_cons,
      ih (extractStep acc f) (fun g hg => h g (List.mem_cons_of_mem f hg)),
      extractStep_snd_of_noMatch (h f (List.mem_cons_self f rest))]

/-- Appending one more file to the scan applies one extraction step to the
result of scanning the earlier files. -/
theorem extractMetadata_append (fs : List FileEntry) (f : FileEntry) :
    extractMetadata (fs ++ [f]) = extractStep (extractMetadata fs) f := by
  simp [extractMetadata, List.foldl_append]

/-! ## Claim theorems on metadata extraction -/

/-- C2: for every filing details text in which the FILED AS OF DATE and
CONFORMED PERIOD OF REPORT labels are each followed by whitespace and an
eight digit capture within the first 10000 characters read, the extractor
returns both captures reformatted as YYYY-MM-DD; in particular the text of
the specification example yields filing_date 2023-04-15 and
period_of_report 2022-12-31. -/
theorem header_dates_extracted :
    (∀ (name content : String) (d1 d2 : List Char),
       isDetailsName name = true →
       searchPat filedLabel (content.data.take 10000) = some d1 →
       searchPat periodLabel (content.data.take 10000) = some d2 →
       extractMetadata [⟨name, some content⟩] = (formatDate d1, formatDate d2)) ∧
    extractMetadata [⟨"filing-details.txt", some exampleHeader⟩] =
      ("2023-04-15", "2022-12-31") := by
  constructor
  · intro name content d1 d2 hn h1 h2
    show extractStep ("Unknown", "Unknown") ⟨name, some content⟩ =
      (formatDate d1, formatDate d2)
    simp [extractStep, hn, h1, h2]
  · decide

/-- Witness for C2 at the specification example text. -/
theorem header_dates_extracted_witness :
    extractMetadata [⟨"filing-details.txt", some exampleHeader⟩] =
      (formatDate "20230415".data, formatDate "20221231".data) :=
  header_dates_extracted.1 "filing-details.txt" exampleHeader
    "20230415".data "20221231".data (by decide) (by decide) (by decide)

/-- C3: extraction never raises and degrades to the literal Unknown: when
every file of the directory fails the name filter, is unreadable, or lacks
a pattern, the corresponding field is Unknown; an empty directory, an
unreadable details file, and a details text missing both header lines all
give the pair (Unknown, Unknown). -/
theorem extraction_degrades_to_unknown :
    (∀ files : List FileEntry,
       (∀ f ∈ files, isDetailsName f.name = false ∨ filedMatch f = none) →
       (extractMetadata files).1 = "Unknown") ∧
    (∀ files : List FileEntry,
       (∀ f ∈ files, isDetailsName f.name = false ∨ periodMatch f = none) →
       (extractMetadata files).2 = "Unknown") ∧
    extractMetadata [] = ("Unknown", "Unknown") ∧
    extractMetadata [⟨"filing-details.txt", none⟩] = ("Unknown", "Unknown") ∧
    extractMetadata [⟨"filing-details.txt", some noHeaderText⟩] =
      ("Unknown", "Unknown") := by
  refine ⟨fun files h => foldl_fst_unchanged files _ h,
    fun files h => foldl_snd_unchanged files _ h, rfl, by decide, by decide⟩

/-- Witness for C3 on a details text missing both header lines. -/
theorem extraction_degrades_witness :
    (extractMetadata [⟨"filing-details.txt", some noHeaderText⟩]).1 = "Unknown" :=
  extraction_degrades_to_unknown.1 [⟨"filing-details.txt", some noHeaderText⟩]
    (by decide)

/-- C9: the captured eight digit strings are reformatted by pure slicing
with no calendar validation, so the non calendar value 20231399 yields
2023-13-99 rather than Unknown. -/
theorem date_slicing_no_validation :
    (∀ (name content : String) (d : List Char),
       isDetailsName name = true →
       searchPat filedLabel (content.data.take 10000) = some d →
       (extractMetadata [⟨name, some content⟩]).1 =
         String.mk (d.take 4) ++ "-" ++ String.mk ((d.drop 4).take 2) ++ "-" ++
           String.mk ((d.drop 6).take 2)) ∧
    extractMetadata [⟨"filing-details.txt", some badDateText⟩] =
      ("2023-13-99", "2023-13-99") ∧
    ("2023-13-99" : String) ≠ "Unknown" := by
  refine ⟨?_, by decide, by decide⟩
  intro name content d hn h1
  show (extractStep ("Unknown", "Unknown") ⟨name, some content⟩).1 = _
  rw [extractStep_fst_some hn rfl h1]
  rfl

/-- Witness for C9 on the non calendar header text. -/
theorem date_slicing_witness :
    (extractMetadata [⟨"filing-details.txt", some badDateText⟩]).1 =
      String.mk ("20231399".data.take 4) ++ "-" ++
        String.mk (("20231399".data.drop 4).take 2) ++ "-" ++
        String.mk (("20231399".data.drop 6).take 2) :=
  date_slicing_no_validation.1 "filing-details.txt" badDateText
    "20231399".data (by decide) (by decide)

/-- C10: when several files pass the details name filter, they are read in
enumeration order and each field holds the value from the last file whose
content matched the pattern of that field; a later matching named file
without the pattern, or unreadable, does not reset a previously extracted
value. -/
theorem last_matching_file_wins :
    (∀ (fs : List FileEntry) (f : FileEntry) (d : List Char),
       isDetailsName f.name = true → filedMatch f = some d →
       (extractMetadata (fs ++ [f])).1 = formatDate d) ∧
    (∀ (fs : List FileEntry) (f : FileEntry),
       isDetailsName f.name = true → filedMatch f = none →
       (extractMetadata (fs ++ [f])).1 = (extractMetadata fs).1) ∧
    (∀ (fs : List FileEntry) (f : FileEntry) (d : List Char),
       isDetailsName f.name = true → periodMatch f = some d →
       (extractMetadata (fs ++ [f])).2 = formatDate d) ∧
    (∀ (fs : List FileEntry) (f : FileEntry),
       isDetailsName f.name = true → periodMatch f = none →
       (extractMetadata (fs ++ [f])).2 = (extractMetadata fs).2) := by
  refine ⟨?_, ?_, ?_, ?_⟩
  · intro fs f d hn hm
    obtain ⟨c, hc, hs⟩ := filedMatch_some hm
    rw [extractMetadata_append, extractStep_fst_some hn hc hs]
  · intro fs f hn hm
    rw [extractMetadata_append, extractStep_fst_of_noMatch (Or.inr hm)]
  · intro fs f d hn hm
    obtain ⟨c, hc, hs⟩ := periodMatch_some hm
    rw [extractMetadata_append, extractStep_snd_some hn hc hs]
  · intro fs f hn hm
    rw [extractMetadata_append, extractStep_snd_of_noMatch (Or.inr hm)]

/-- Witness for C10: a matching second details file overrides the value of
the first one. -/
theorem last_matching_file_wins_witness :
    (extractMetadata ([⟨"filing-details.txt", some badDateText⟩] ++
      [⟨"filing-details.txt", some exampleHeader⟩])).1 =
      formatDate "20230415".data :=
  last_matching_file_wins.1 [⟨"filing-details.txt", some badDateText⟩]
    ⟨"filing-details.txt", some exampleHeader⟩ "20230415".data
    (by decide) (by decide)

/-! ## Claim theorems on the summary aggregation and the limit policy -/

/-- C1: analyze_results groups the inventory by (ticker, filing_type):
every nonempty group is represented by a summary row whose filing_count is
the size of the group and whose total_files is the sum of its file counts;
every produced summary row satisfies the same two equations for its own
key; the empty inventory gives the empty table, whose column shape is
fixed by the SummaryRow type; and the three row AAPL inventory of the
specification example gives exactly the two stated summary rows. -/
theorem analyze_results_spec :
    (∀ (rows : List InventoryRow) (t ft : String),
       groupRows rows t ft ≠ [] →
       ∃ s ∈ analyze_results rows, s.ticker = t ∧ s.filing_type = ft ∧
         s.filing_count = (groupRows rows t ft).length ∧
         s.total_files = ((groupRows rows t ft).map (fun r => r.file_count)).sum) ∧
    (∀ (rows : List InventoryRow), ∀ s ∈ analyze_results rows,
       s.filing_count = (groupRows rows s.ticker s.filing_type).length ∧
       s.total_files =
         ((groupRows rows s.ticker s.filing_type).map (fun r => r.file_count)).sum) ∧
    analyze_results [] = [] ∧
    analyze_results exampleInventory =
      [⟨"AAPL", "10-K", 2, 8⟩, ⟨"AAPL", "10-Q", 1, 2⟩] := by
  refine ⟨?_, ?_, rfl, by decide⟩
  · intro rows t ft hne
    obtain ⟨r, hr⟩ := List.exists_mem_of_ne_nil _ hne
    obtain ⟨hrmem, hcond⟩ := List.mem_filter.mp hr
    simp only [Bool.and_eq_true, beq_iff_eq] at hcond
    have hempty : rows.isEmpty = false := by
      cases rows with
      | nil => cases hrmem
      | cons a l => rfl
    have hkey : (t, ft) ∈ summaryKeys rows := by
      have h1 : (t, ft) ∈ rows.map fun r => (r.ticker, r.filing_type) :=
        List.mem_map.mpr ⟨r, hrmem, by rw [hcond.1, hcond.2]⟩
      exact ((List.perm_insertionSort keyLt _).mem_iff).mpr (List.mem_dedup.mpr h1)
    refine ⟨{ ticker := t, filing_type := ft,
              filing_count := (groupRows rows t ft).length,
              total_files := ((groupRows rows t ft).map (fun r => r.file_count)).sum },
            ?_, rfl, rfl, rfl, rfl⟩
    simp only [analyze_results, hempty, Bool.false_eq_true, if_false]
    exact List.mem_map.mpr ⟨(t, ft), hkey, rfl⟩
  · intro rows s hs
    cases hempty : rows.isEmpty with
    | true => simp [analyze_results, hempty] at hs
    | false =>
      simp only [analyze_results, hempty, Bool.false_eq_true, if_false] at hs
      obtain ⟨k, _, rfl⟩ := List.mem_map.mp hs
      exact ⟨rfl, rfl⟩

/-- Witness for C1 on the specification example: the first summary row
satisfies the count and sum equations of its group. -/
theorem analyze_results_spec_witness :
    (⟨"AAPL", "10-K", 2, 8⟩ : SummaryRow).filing_count =
      (groupRows exampleInventory "AAPL" "10-K").length ∧
    (⟨"AAPL", "10-K", 2, 8⟩ : SummaryRow).total_files =
      ((groupRows exampleInventory "AAPL" "10-K").map (fun r => r.file_count)).sum :=
  analyze_results_spec.2.1 exampleInventory ⟨"AAPL", "10-K", 2, 8⟩ (by decide)

/-- C4: the fetch limit policy: with years = end_year - start_year + 1 the
limit is max 5 years for a 10-K request and max 15 (years * 4) for a 10-Q
request; for the range 2020 to 2023 this gives 5 and 16; and for every
filing type and every date range the limit is a positive integer. -/
theorem fetch_limit_spec :
    (∀ s e : Int, fetchLimit "10-K" s e = max 5 (e - s + 1) ∧
       fetchLimit "10-Q" s e = max 15 ((e - s + 1) * 4)) ∧
    fetchLimit "10-K" 2020 2023 = 5 ∧
    fetchLimit "10-Q" 2020 2023 = 16 ∧
    (∀ (ft : String) (s e : Int), 0 < fetchLimit ft s e) := by
  refine ⟨fun s e => ⟨rfl, rfl⟩, by decide, by decide, ?_⟩
  intro ft s e
  simp only [fetchLimit]
  split
  · exact lt_max_of_lt_left (by norm_num)
  · exact lt_max_of_lt_left (by norm_num)

/-! ## Claim theorems on the download loop -/

/-- C5: every inventory row emitted by any run has a positive file count,
and a tree whose walked directories all hold zero files produces no row at
all. -/
theorem inventory_file_count_pos :
    (∀ (fetch : String → String → FetchOutcome) (tickers filing_types : List String)
       (r : InventoryRow),
       r ∈ (runAll fetch tickers filing_types).1 → 0 < r.file_count) ∧
    (∀ (tk ft : String) (t : DirTree),
       (∀ p ∈ walkDescendants t, p.2 = []) → processTree tk ft t = []) := by
  constructor
  · intro fetch tickers filing_types r hr
    obtain ⟨p, hp, hrp⟩ := List.mem_flatMap.mp hr
    cases hfo : fetch p.1 p.2 with
    | error => simp [runPair, hfo] at hrp
    | ok o =>
      cases o with
      | none => simp [runPair, hfo] at hrp
      | some t =>
        simp only [runPair, hfo] at hrp
        simp only [processTree] at hrp
        obtain ⟨q, hq, rfl⟩ := List.mem_map.mp hrp
        exact of_decide_eq_true (List.mem_filter.mp hq).2
  · intro tk ft t h
    have hf : (walkDescendants t).filter (fun p => decide (0 < p.2.length)) = [] :=
      List.filter_eq_nil_iff.mpr fun p hp => by simp [h p hp]
    simp only [processTree, hf, List.map_nil]

/-- Tiny file used by the concrete trees below; its name does not carry
the filing-details marker, so it only contributes to the file count. -/
def sharedFile : FileEntry := ⟨"doc.txt", some "x"⟩

/-- Tree whose walked directories all hold zero files. -/
def emptyishTree : DirTree :=
  .node [] [("acc1", .node [] []), ("acc2", .node [] [("sub", .node [] [])])]

/-- Witness for C5: the all empty tree yields no inventory row. -/
theorem inventory_file_count_pos_witness :
    processTree "AAPL" "10-K" emptyishTree = [] :=
  inventory_file_count_pos.2 "AAPL" "10-K" emptyishTree (by decide)

/-- Tree with two accession directories that each contain a nested
subdirectory of the same basename holding a file. -/
def dupNameTree : DirTree :=
  .node [] [("acc1", .node [sharedFile] [("sub", .node [sharedFile] [])]),
            ("acc2", .node [sharedFile] [("sub", .node [sharedFile] [])])]

/-- C6 counterexample: on a tree where two different accession directories
hold nested subdirectories of the same basename with files inside, the
emitted accession numbers of a single (ticker, filing_type) pair are not
pairwise distinct, since the accession number is just the basename of the
walked directory. -/
theorem accession_uniqueness_cex :
    ¬ (((processTree "AAPL" "10-K" dupNameTree).map
        fun r => r.accession_number).Nodup) := by decide

/-- Rows surviving the nonempty filter are at most the immediate child
directories when every deeper walked directory holds zero files. -/
theorem filter_walkSubs_sublist (subs : List (String × DirTree)) :
    (∀ p ∈ subs, ∀ q ∈ walkSubs p.2.subs, q.2 = []) →
    ((walkSubs subs).filter fun p => decide (0 < p.2.length)).Sublist
      (subs.map fun p => (p.1, p.2.files)) := by
  induction subs with
  | nil => intro _; simp [walkSubs]
  | cons a rest ih =>
    intro hdeep
    obtain ⟨n, t⟩ := a
    have hwalk : walkAll n t = (n, t.files) :: walkSubs t.subs := by
      cases t
      rfl
    have hdeept : (walkSubs t.subs).filter (fun p => decide (0 < p.2.length)) = [] :=
      List.filter_eq_nil_iff.mpr fun q hq => by
        simp [hdeep (n, t) (List.mem_cons_self _ _) q hq]
    have hrest := ih fun p hp => hdeep p (List.mem_cons_of_mem _ hp)
    show ((walkAll n t ++ walkSubs rest).filter fun p => decide (0 < p.2.length)).Sublist
      (((n, t) :: rest).map fun p => (p.1, p.2.files))
    rw [List.filter_append, hwalk, List.filter_cons, hdeept, List.map_cons]
    by_cases hc : decide (0 < (n, t.files).2.length) = true
    · rw [if_pos hc]
      simpa using List.Sublist.cons₂ (n, t.files) hrest
    · rw [if_neg hc]
      simpa using List.Sublist.cons (n, t.files) hrest

/-- C6 amended: within one run and one (ticker, filing_type) pair, the
emitted accession numbers are pairwise distinct for every tree whose
immediate child directories carry pairwise distinct names and whose deeper
directories hold no files, which is the shape the external fetch library
produces; the counterexample above shows the restriction to such trees is
necessary. -/
theorem accession_uniqueness_amended (tk ft : String) (t : DirTree)
    (hnames : (t.subs.map fun p => p.1).Nodup)
    (hdeep : ∀ p ∈ t.subs, ∀ q ∈ walkSubs p.2.subs, q.2 = []) :
    ((processTree tk ft t).map fun r => r.accession_number).Nodup := by
  have hsub := filter_walkSubs_sublist t.subs hdeep
  have hmap : ((processTree tk ft t).map fun r => r.accession_number) =
      ((walkDescendants t).filter fun p => decide (0 < p.2.length)).map fun p => p.1 := by
    simp [processTree, rowOfDir, List.map_map]
  rw [hmap]
  have h2 := List.Sublist.map (fun p : String × List FileEntry => p.1) hsub
  have h3 : ((t.subs.map fun p => (p.1, p.2.files)).map
      fun p : String × List FileEntry => p.1) = t.subs.map fun p => p.1 := by
    simp [List.map_map]
  rw [h3] at h2
  exact List.Nodup.sublist h2 hnames

/-- Tree of the expected shape: distinct accession directories that each
hold files directly and nest nothing. -/
def goodTree : DirTree :=
  .node [] [("acc1", .node [sharedFile] []), ("acc2", .node [sharedFile] [])]

/-- Witness for C6 amended on a well shaped tree. -/
theorem accession_uniqueness_witness :
    ((processTree "AAPL" "10-K" goodTree).map fun r => r.accession_number).Nodup :=
  accession_uniqueness_amended "AAPL" "10-K" goodTree (by decide) (by decide)

/-- Projection of the attempt events back to their pairs. -/
def attemptOf : Event → Option (String × String)
  | .fetchAttempt tk ft => some (tk, ft)
  | _ => none

/-- Every pair body emits exactly one attempt event, whatever the fetch
outcome is. -/
theorem runPair_attempts (fetch : String → String → FetchOutcome) (a b : String) :
    (runPair fetch a b).2.filterMap attemptOf = [(a, b)] := by
  cases hfo : fetch a b with
  | error => simp [runPair, hfo, attemptOf]
  | ok o => cases o <;> simp [runPair, hfo, attemptOf]

/-- Attempted pairs of a whole run, in order: exactly the iterated pair
list, each exactly once. -/
theorem attempts_of_flatMap (fetch : String → String → FetchOutcome) :
    ∀ ps : List (String × String),
      ((ps.flatMap fun p => (runPair fetch p.1 p.2).2).filterMap attemptOf) = ps := by
  intro ps
  induction ps with
  | nil => rfl
  | cons p rest ih =>
    rw [List.flatMap_cons, List.filterMap_append, runPair_attempts, ih]
    rfl

/-- C7: a pair whose fetch raises contributes zero inventory rows; its
trace is exactly the logged failure preceded by the attempt and followed
by the ten unit backoff sleep; the attempted pairs of the whole run are
exactly the pair matrix in iteration order, so the failing pair is not
retried and every subsequent pair is still processed; and every row of any
pair body still reaches the final inventory, so one failing pair only
reduces the inventory. -/
theorem fetch_failure_isolated (fetch : String → String → FetchOutcome)
    (tickers filing_types : List String) (tk ft : String)
    (h : fetch tk ft = .error) :
    (runPair fetch tk ft).1 = [] ∧
    (runPair fetch tk ft).2 =
      [.fetchAttempt tk ft, .fetchError tk ft, .sleep 10] ∧
    (runAll fetch tickers filing_types).2.filterMap attemptOf =
      pairsOf tickers filing_types ∧
    (∀ p ∈ pairsOf tickers filing_types, ∀ r ∈ (runPair fetch p.1 p.2).1,
       r ∈ (runAll fetch tickers filing_types).1) := by
  refine ⟨by simp [runPair, h], by simp [runPair, h],
    attempts_of_flatMap fetch _, ?_⟩
  intro p hp r hr
  exact List.mem_flatMap.mpr ⟨p, hp, hr⟩

/-- Fetch oracle that raises for the TSLA ticker and succeeds with one
populated accession directory for every other ticker. -/
def fetchW : String → String → FetchOutcome := fun tk _ =>
  if tk = "TSLA" then .error
  else .ok (some (.node [] [("acc1", .node [sharedFile] [])]))

/-- Witness for C7 on a run where the first pair fails and the second
succeeds. -/
theorem fetch_failure_isolated_witness :
    (runPair fetchW "TSLA" "10-K").1 = [] ∧
    (runPair fetchW "TSLA" "10-K").2 =
      [.fetchAttempt "TSLA" "10-K", .fetchError "TSLA" "10-K", .sleep 10] ∧
    (runAll fetchW ["TSLA", "GM"] ["10-K"]).2.filterMap attemptOf =
      pairsOf ["TSLA", "GM"] ["10-K"] :=
  ⟨(fetch_failure_isolated fetchW ["TSLA", "GM"] ["10-K"] "TSLA" "10-K" rfl).1,
   (fetch_failure_isolated fetchW ["TSLA", "GM"] ["10-K"] "TSLA" "10-K" rfl).2.1,
   (fetch_failure_isolated fetchW ["TSLA", "GM"] ["10-K"] "TSLA" "10-K" rfl).2.2.1⟩

/-- C8: failing to create the download root aborts the run; with the root
created, the run completes for every fetch behaviour and produces both the
inventory table and the summary table recomputed from it, while fetch
failures and missing ticker paths only cost the rows of the pair in
progress. -/
theorem run_fatal_only_on_mkdir (fetch : String → String → FetchOutcome)
    (tickers filing_types : List String) :
    runComplete false fetch tickers filing_types = none ∧
    (∃ rows summary, runComplete true fetch tickers filing_types = some (rows, summary) ∧
       summary = analyze_results rows) ∧
    (∀ tk ft, fetch tk ft = .error → (runPair fetch tk ft).1 = []) ∧
    (∀ tk ft, fetch tk ft = .ok none → (runPair fetch tk ft).1 = []) := by
  refine ⟨rfl, ⟨_, _, rfl, rfl⟩, ?_, ?_⟩
  · intro tk ft h
    simp [runPair, h]
  · intro tk ft h
    simp [runPair, h]

/-- Witness for C8: the aborted run and the isolated failing pair, on the
concrete oracle. -/
theorem run_fatal_only_on_mkdir_witness :
    runComplete false fetchW ["TSLA"] ["10-K"] = none ∧
    (runPair fetchW "TSLA" "10-K").1 = [] :=
  ⟨(run_fatal_only_on_mkdir fetchW ["TSLA"] ["10-K"]).1,
   (run_fatal_only_on_mkdir fetchW ["TSLA"] ["10-K"]).2.2.1 "TSLA" "10-K" rfl⟩

end SecDownloader
